import Mathlib

/-!
Verification development for the clean-code-javascript repository.

The repository is a guide of "bad" versus "good" JavaScript snippets
(src/index.js) together with a specification of a minimal rule-based
static checker.  This file gives a shallow embedding of

* the concrete snippets referenced by the claims (the Liskov
  Rectangle/Square example, the type-checking `combine` function, and
  the two `totalOutput` accumulations), and
* the rule-based checker described by the specification (the checker is
  not implemented in the repository, so its components are modelled
  from the specification text, as marked on each definition).

All embedded definitions are executable and machine words are modelled
by unbounded integers where the claims do not depend on overflow.
-/

namespace CleanCode

/-! ### The Liskov-substitution Rectangle/Square example (src/index.js lines 1594-1643)

JavaScript classes are embedded as a record of fields together with one
Lean function per method.  `Square extends Rectangle` inherits the
constructor and every method it does not override; the embedding spells
out the method table that JavaScript's prototype lookup produces. -/

/-- State of a `Rectangle` (and of a `Square`, which adds no fields):
`this.width` and `this.height`. -/
structure RectState where
  width : Int
  height : Int
deriving Repr, DecidableEq

/-- Source constructor: `constructor() { this.width = 0; this.height = 0; }`. -/
def Rectangle.new : RectState := { width := 0, height := 0 }

/-- Source: `setWidth(width) { this.width = width; }`. -/
def Rectangle.setWidth (self : RectState) (width : Int) : RectState :=
  { self with width := width }

/-- Source: `setHeight(height) { this.height = height; }`. -/
def Rectangle.setHeight (self : RectState) (height : Int) : RectState :=
  { self with height := height }

/-- Source: `getArea() { return this.width * this.height; }`. -/
def Rectangle.getArea (self : RectState) : Int :=
  self.width * self.height

/-- Square declares no constructor, so `new Square()` runs `Rectangle`'s
constructor. -/
def Square.new : RectState := Rectangle.new

/-- Source override: `setWidth(width) { this.width = width; this.height = width; }`. -/
def Square.setWidth (self : RectState) (width : Int) : RectState :=
  { self with width := width, height := width }

/-- Source: `setHeigh(height) { this.width = height; this.height = height; }`.
Note the name: the source spells it `setHeigh`, so it does NOT override
`Rectangle.setHeight`. -/
def Square.setHeigh (self : RectState) (height : Int) : RectState :=
  { self with width := height, height := height }

/-- Method lookup for `square.setHeight(...)`: `Square` defines no method
named `setHeight` (only the misspelt `setHeigh`), so the call resolves to
the inherited `Rectangle.setHeight`. -/
def Square.setHeight (self : RectState) (height : Int) : RectState :=
  Rectangle.setHeight self height

/-- `getArea` is likewise inherited unchanged from `Rectangle`. -/
def Square.getArea (self : RectState) : Int :=
  Rectangle.getArea self

/-! ### The type-checking `combine` (src/index.js lines 553-562)

JavaScript runtime values are embedded as a small sum type covering the
`typeof` classes the function dispatches on; numbers are modelled by
unbounded integers, which is faithful for the type-dispatch behaviour
the claim is about. -/

/-- A JavaScript runtime value, as far as `typeof` dispatch and `+` on
matching operands are concerned. -/
inductive JSVal where
  | num (n : Int)
  | str (s : String)
  | boolean (b : Bool)
  | undefinedV
  | nullV
deriving Repr, DecidableEq

/-- JavaScript's `typeof` operator on the embedded values
(`typeof null` is famously `"object"`). -/
def JSVal.typeof : JSVal → String
  | .num _ => "number"
  | .str _ => "string"
  | .boolean _ => "boolean"
  | .undefinedV => "undefined"
  | .nullV => "object"

/-- JavaScript `val1 + val2` restricted to the two cases `combine`'s
guard lets through: number + number and string + string.  The final
catch-all is unreachable from `combine`. -/
def jsAdd : JSVal → JSVal → JSVal
  | .num a, .num b => .num (a + b)
  | .str a, .str b => .str (a ++ b)
  | _, _ => .undefinedV

/-- A thrown JavaScript `Error`, identified by its message. -/
structure JSError where
  message : String
deriving Repr, DecidableEq

/-- Source (the "bad", type-checking version):
`function combine(val1, val2) { if ((typeof val1 === "number" && typeof val2 === "number") || (typeof val1 === "string" && typeof val2 === "string")) { return val1 + val2; } throw new Error("Must be of type String or Number"); }`. -/
def combine (val1 val2 : JSVal) : Except JSError JSVal :=
  if (val1.typeof == "number" && val2.typeof == "number")
      || (val1.typeof == "string" && val2.typeof == "string") then
    .ok (jsAdd val1 val2)
  else
    .error { message := "Must be of type String or Number" }

/-! ### The two `totalOutput` accumulations (src/index.js lines 423-427 and 449-452) -/

/-- One element of `programmerOutput`: a record with a `name` and a
numeric `linesOfCode` field. -/
structure ProgrammerOutput where
  name : String
  linesOfCode : Int
deriving Repr, DecidableEq

/-- Fallback record used to embed the JavaScript indexed read
`programmerOutput[i]`; the imperative loop only reads indices below the
length, so the fallback is never produced. -/
def ProgrammerOutput.default : ProgrammerOutput :=
  { name := "", linesOfCode := 0 }

/-- Source (the "bad", imperative version):
`let totalOutput = 0; for (let i = 0; i < programmerOutput.length; i++) { totalOutput += programmerOutput[i].linesOfCode; }`. -/
def totalOutputImperative (programmerOutput : List ProgrammerOutput) : Int :=
  (List.range programmerOutput.length).foldl
    (fun totalOutput i =>
      totalOutput + (programmerOutput.getD i ProgrammerOutput.default).linesOfCode)
    0

/-- Source (the "good", functional version):
`const totalOutput = programmerOutput.reduce((totalLines, output) => totalLines + output.linesOfCode, 0);`. -/
def totalOutputReduce (programmerOutput : List ProgrammerOutput) : Int :=
  programmerOutput.foldl
    (fun totalLines output => totalLines + output.linesOfCode)
    0

/-! ### The rule-based static checker

The repository's specification describes a minimal rule-based checker
(tokenizer adapter, rules, rule registry, checker engine, reporter)
that is not implemented in the repository's source files; every
definition in this section is therefore modelled from the
specification text, as its doc comment records. -/

/-- Modelled from the spec: a source span, start and end line and
column, as exposed by the external parser on every AST node.  (The
parser adapter itself is the missing external collaborator.) -/
structure Span where
  startLine : Nat
  startCol : Nat
  endLine : Nat
  endCol : Nat
deriving Repr, DecidableEq

/-- Modelled from the spec: a finding's severity is warning or error. -/
inductive Severity where
  | warning
  | error
deriving Repr, DecidableEq

/-- Modelled from the spec: a Finding carries rule name, severity,
message, source span and optional suggested fix text. -/
structure Finding where
  ruleName : String
  severity : Severity
  message : String
  span : Span
  fix : Option String
deriving Repr, DecidableEq

mutual

/-- Modelled from the spec: an AST node as produced by the external
parser, with node kind, span and children.  The constructors cover the
shapes the specified rules dispatch on: numeric literals, identifier
references, call expressions, const-like bindings, function
declarations (with named, spanned parameters) and a whole-program
node. -/
inductive ASTNode where
  | numLit (value : Int) (span : Span)
  | identRef (name : String) (span : Span)
  | call (callee : String) (args : ASTNodeList) (span : Span)
  | constDecl (name : String) (init : ASTNode) (span : Span)
  | funcDecl (name : String) (params : List (String × Span)) (body : ASTNodeList) (span : Span)
  | program (stmts : ASTNodeList) (span : Span)

/-- A list of sibling AST nodes, in the deterministic child order given
by the parser. -/
inductive ASTNodeList where
  | nil
  | cons (head : ASTNode) (tail : ASTNodeList)

end

/-- The node kind string a rule's `appliesTo` filter dispatches on. -/
def ASTNode.kind : ASTNode → String
  | .numLit .. => "numericLiteral"
  | .identRef .. => "identifier"
  | .call .. => "callExpression"
  | .constDecl .. => "constDeclaration"
  | .funcDecl .. => "functionDeclaration"
  | .program .. => "program"

/-- The span the parser attached to a node. -/
def ASTNode.span : ASTNode → Span
  | .numLit _ s => s
  | .identRef _ s => s
  | .call _ _ s => s
  | .constDecl _ _ s => s
  | .funcDecl _ _ _ s => s
  | .program _ s => s

mutual

/-- Pre-order traversal of an AST: the node itself, then its children,
in the deterministic order given by the parser. -/
def ASTNode.collectNodes : ASTNode → List ASTNode
  | .numLit v s => [.numLit v s]
  | .identRef n s => [.identRef n s]
  | .call c args s => .call c args s :: ASTNodeList.collectNodes args
  | .constDecl n init s => .constDecl n init s :: ASTNode.collectNodes init
  | .funcDecl n ps body s => .funcDecl n ps body s :: ASTNodeList.collectNodes body
  | .program stmts s => .program stmts s :: ASTNodeList.collectNodes stmts

/-- Pre-order traversal of a sibling list. -/
def ASTNodeList.collectNodes : ASTNodeList → List ASTNode
  | .nil => []
  | .cons h t => ASTNode.collectNodes h ++ ASTNodeList.collectNodes t

end

/-- The spans of the nodes of a sibling list (one level, no descent). -/
def ASTNodeList.topSpans : ASTNodeList → List Span
  | .nil => []
  | .cons h t => h.span :: t.topSpans

/-- The spans syntactically attached to a node itself: its own span,
its immediate children's spans, and its parameter spans.  Every span a
rule can attach a finding to at this node is among them. -/
def ASTNode.shallowSpans : ASTNode → List Span
  | .call _ args s => s :: args.topSpans
  | .funcDecl _ ps _ s => s :: ps.map Prod.snd
  | n => [n.span]

/-- All spans the parser placed in an AST, collected shallowly at every
node of the pre-order traversal. -/
def ASTNode.allSpans (root : ASTNode) : List Span :=
  root.collectNodes.flatMap ASTNode.shallowSpans

/-- Modelled from the spec: the read-only context a rule receives,
exposing the full AST and the file text. -/
structure Context where
  root : ASTNode
  text : String

/-- Modelled from the spec: a rule has a unique name, a severity, the
node kinds it applies to (or the whole-file sentinel), and a pure
evaluation function returning the spans and messages of its findings;
the engine attaches the rule's name and severity to each. -/
structure Rule where
  name : String
  severity : Severity
  wholeFile : Bool
  appliesTo : String → Bool
  evaluate : ASTNode → Context → List (Span × String)

/-- Modelled from the spec: registration failure for a duplicate rule
name. -/
inductive RegistryError where
  | duplicateRule (name : String)
deriving Repr, DecidableEq

/-- Modelled from the spec: the rule registry, an ordered collection of
registered rules together with the names in the active set. -/
structure Registry where
  rules : List Rule
  active : List String

/-- Modelled from the spec: `register` fails with a duplicate-rule
error when the name already exists, otherwise appends the rule and
activates it. -/
def Registry.register (reg : Registry) (r : Rule) : Except RegistryError Registry :=
  if reg.rules.any (fun r0 => r0.name == r.name) then
    .error (.duplicateRule r.name)
  else
    .ok { rules := reg.rules ++ [r], active := reg.active ++ [r.name] }

/-- Modelled from the spec: `disable` removes names from the active set
without removing registration. -/
def Registry.disable (reg : Registry) (names : List String) : Registry :=
  { reg with active := reg.active.filter (fun n => !(names.contains n)) }

/-- Modelled from the spec: `enable` restores registered names to the
active set. -/
def Registry.enable (reg : Registry) (names : List String) : Registry :=
  { reg with
    active := reg.active ++ names.filter (fun n =>
      reg.rules.any (fun r => r.name == n) && !(reg.active.contains n)) }

/-- Modelled from the spec: the active per-node rules applicable to a
node kind, in registration order. -/
def Registry.activeRules (reg : Registry) (kind : String) : List Rule :=
  reg.rules.filter (fun r =>
    !r.wholeFile && reg.active.contains r.name && r.appliesTo kind)

/-- Modelled from the spec: the active whole-file rules, in
registration order. -/
def Registry.activeWholeFileRules (reg : Registry) : List Rule :=
  reg.rules.filter (fun r => r.wholeFile && reg.active.contains r.name)

/-- Modelled from the spec: a parse failure from the external parser,
with its message and location. -/
structure ParseError where
  message : String
  span : Span
deriving Repr, DecidableEq

/-- Modelled from the spec: a source file handed to the checker.  The
parser adapter is an external collaborator that deterministically
either produces an AST or fails; a source text is therefore embedded
together with that outcome. -/
inductive SourceText where
  | wellFormed (text : String) (ast : ASTNode)
  | malformed (text : String) (err : ParseError)

/-- The raw text of a source file. -/
def SourceText.text : SourceText → String
  | .wellFormed t _ => t
  | .malformed t _ => t

/-- Modelled from the spec: the parser adapter contract,
`parse(text) -> AST root, fails with ParseError on malformed syntax`. -/
def parse : SourceText → Except ParseError ASTNode
  | .wellFormed _ ast => .ok ast
  | .malformed _ e => .error e

/-- Modelled from the spec: the output ordering contract on findings,
ascending by (line, column, rule name), ties at the same position
broken lexicographically by rule name. -/
def findingLE (a b : Finding) : Prop :=
  a.span.startLine < b.span.startLine ∨
    (a.span.startLine = b.span.startLine ∧
      (a.span.startCol < b.span.startCol ∨
        (a.span.startCol = b.span.startCol ∧ a.ruleName ≤ b.ruleName)))

instance : DecidableRel findingLE := fun a b => by
  unfold findingLE
  infer_instance

instance : IsTotal Finding findingLE :=
  ⟨fun a b => by
    unfold findingLE
    rcases Nat.lt_trichotomy a.span.startLine b.span.startLine with h | h | h
    · exact Or.inl (Or.inl h)
    · rcases Nat.lt_trichotomy a.span.startCol b.span.startCol with h2 | h2 | h2
      · exact Or.inl (Or.inr ⟨h, Or.inl h2⟩)
      · rcases le_total a.ruleName b.ruleName with h3 | h3
        · exact Or.inl (Or.inr ⟨h, Or.inr ⟨h2, h3⟩⟩)
        · exact Or.inr (Or.inr ⟨h.symm, Or.inr ⟨h2.symm, h3⟩⟩)
      · exact Or.inr (Or.inr ⟨h.symm, Or.inl h2⟩)
    · exact Or.inr (Or.inl h)⟩

instance : IsTrans Finding findingLE :=
  ⟨fun a b c hab hbc => by
    unfold findingLE at hab hbc ⊢
    rcases hab with h1 | ⟨e1, h1⟩ <;> rcases hbc with h2 | ⟨e2, h2⟩
    · exact Or.inl (lt_trans h1 h2)
    · exact Or.inl (lt_of_lt_of_le h1 (le_of_eq e2))
    · exact Or.inl (lt_of_le_of_lt (le_of_eq e1) h2)
    · refine Or.inr ⟨e1.trans e2, ?_⟩
      rcases h1 with h1 | ⟨f1, h1⟩ <;> rcases h2 with h2 | ⟨f2, h2⟩
      · exact Or.inl (lt_trans h1 h2)
      · exact Or.inl (lt_of_lt_of_le h1 (le_of_eq f2))
      · exact Or.inl (lt_of_le_of_lt (le_of_eq f1) h2)
      · exact Or.inr ⟨f1.trans f2, le_trans h1 h2⟩⟩

/-- Modelled from the spec: the engine's final deterministic ordering
step, sorting findings by (line, column, rule name). -/
def sortFindings (l : List Finding) : List Finding :=
  List.insertionSort findingLE l

/-- Modelled from the spec: a Report is the ordered sequence of
findings for one source file plus a summary count by severity. -/
structure Report where
  findings : List Finding
  warningCount : Nat
  errorCount : Nat
deriving Repr, DecidableEq

/-- Count of findings at one severity, for the Report summary. -/
def severityCount (sev : Severity) (l : List Finding) : Nat :=
  l.countP (fun f => f.severity == sev)

/-- Build the terminal Report of a pass from the collected findings. -/
def mkReport (l : List Finding) : Report :=
  { findings := sortFindings l
    warningCount := severityCount .warning l
    errorCount := severityCount .error l }

/-- The engine turns a rule's raw outputs at a node into findings
tagged with the rule's own name and severity. -/
def ruleFindings (r : Rule) (n : ASTNode) (ctx : Context) : List Finding :=
  (r.evaluate n ctx).map (fun out =>
    { ruleName := r.name, severity := r.severity, message := out.2, span := out.1, fix := none })

/-- Modelled from the spec: one pre-order traversal dispatching every
node to the applicable active rules in registration order, followed by
the active whole-file rules invoked once on the root. -/
def runRules (reg : Registry) (ctx : Context) : List Finding :=
  (ctx.root.collectNodes.flatMap fun n =>
    (reg.activeRules n.kind).flatMap fun r => ruleFindings r n ctx)
    ++ reg.activeWholeFileRules.flatMap fun r => ruleFindings r ctx.root ctx

/-- Modelled from the spec: the single synthetic Finding a ParseError
is reported as, severity error and rule name "parse-error". -/
def parseErrorFinding (e : ParseError) : Finding :=
  { ruleName := "parse-error", severity := .error, message := e.message, span := e.span, fix := none }

/-- Modelled from the spec: `check(sourceFile) -> Report`.  A parse
failure yields the single synthetic parse-error finding; otherwise the
engine traverses the AST, collects rule findings and sorts them. -/
def check (reg : Registry) (file : SourceText) : Report :=
  match parse file with
  | .error e => mkReport [parseErrorFinding e]
  | .ok ast => mkReport (runRules reg { root := ast, text := file.text })

/-- Modelled from the spec: a batch checks every file independently,
producing one Report per file. -/
def checkBatch (reg : Registry) (files : List SourceText) : List Report :=
  files.map (check reg)

/-- Modelled from the spec: internal errors that make the run exit with
status 2 — an unreadable file or an invalid configuration. -/
inductive RunError where
  | unreadableFile (path : String)
  | invalidConfig (message : String)
deriving Repr, DecidableEq

/-- Modelled from the spec: whether a finding is at or above the
failing severity — error always fails the run, warning only in strict
mode. -/
def qualifies (strict : Bool) (f : Finding) : Bool :=
  match f.severity with
  | .error => true
  | .warning => strict

/-- Modelled from the spec: the Reporter's exit status over the whole
run — 0 when no qualifying finding exists, 1 when at least one does,
2 on internal error. -/
def exitStatus (strict : Bool) (outcome : Except RunError (List Report)) : Nat :=
  match outcome with
  | .error _ => 2
  | .ok reports =>
    if reports.any (fun rep => rep.findings.any (qualifies strict)) then 1 else 0

/-- A numeric literal value is "magic" when it is not 0, 1 or -1. -/
def isMagicValue (v : Int) : Bool :=
  v != 0 && v != 1 && v != -1

/-- Message attached to every NoMagicNumber finding. -/
def magicNumberMessage : String :=
  "magic number; bind it to a named constant"

/-- The spans of the magic numeric literals used directly among the
arguments of one call. -/
def magicArgSpans : ASTNodeList → List Span
  | .nil => []
  | .cons a rest =>
    (match a with
     | .numLit v s => if isMagicValue v then [s] else []
     | _ => []) ++ magicArgSpans rest

/-- Modelled from the spec: the NoMagicNumber rule — flags numeric
literals other than 0, 1, -1 used directly as a call argument; a value
instead bound to a SCREAMING_CASE constant reaches the call as an
identifier reference and is not a literal argument, so it is not
flagged. -/
def NoMagicNumber : Rule :=
  { name := "NoMagicNumber"
    severity := .warning
    wholeFile := false
    appliesTo := fun kind => kind == "callExpression"
    evaluate := fun n _ctx =>
      match n with
      | .call _ args _ => (magicArgSpans args).map (fun s => (s, magicNumberMessage))
      | _ => [] }

/-- Message attached to every NoSingleLetterIdentifier finding. -/
def singleLetterMessage : String :=
  "single-letter identifier in parameter position"

/-- Modelled from the spec: the NoSingleLetterIdentifier rule — flags
declarations of length-1 identifiers in function-parameter position
(the loop-header exemption list concerns `for` headers only, which do
not occur in parameter position). -/
def NoSingleLetterIdentifier : Rule :=
  { name := "NoSingleLetterIdentifier"
    severity := .warning
    wholeFile := false
    appliesTo := fun kind => kind == "functionDeclaration"
    evaluate := fun n _ctx =>
      match n with
      | .funcDecl _ params _ _ =>
        params.filterMap (fun p =>
          if p.1.length == 1 then some (p.2, singleLetterMessage) else none)
      | _ => [] }

/-- The registry holding the two concrete modelled rules, both active,
in registration order. -/
def defaultRegistry : Registry :=
  { rules := [NoMagicNumber, NoSingleLetterIdentifier]
    active := ["NoMagicNumber", "NoSingleLetterIdentifier"] }

/-- Claim-side characterisation for the magic-number claim: the spans
of all magic numeric literals used directly as call arguments anywhere
in a file's AST. -/
def ASTNode.magicCallArgSpans (root : ASTNode) : List Span :=
  root.collectNodes.flatMap fun n =>
    match n with
    | .call _ args _ => magicArgSpans args
    | _ => []

/-- Number of lines of a source file, the bound a span must respect:
one more than the number of newline characters in the text. -/
def SourceText.lineCount (f : SourceText) : Nat :=
  f.text.data.countP (fun c => c == '\n') + 1

/-- A span lies within a file of `lineCount` lines (1-based lines, the
end not before the start). -/
def Span.inBounds (s : Span) (lineCount : Nat) : Prop :=
  1 ≤ s.startLine ∧ s.startLine ≤ s.endLine ∧ s.endLine ≤ lineCount

instance (s : Span) (n : Nat) : Decidable (s.inBounds n) := by
  unfold Span.inBounds
  infer_instance

/-- All spans the external parser attached to a source file's parse
outcome: every shallow span of the AST for a well-formed file, the
error's span for a malformed one. -/
def SourceText.spans : SourceText → List Span
  | .wellFormed _ ast => ast.allSpans
  | .malformed _ e => [e.span]

/-- The finding the engine produces for a magic numeric literal at a
given span. -/
def magicFinding (s : Span) : Finding :=
  { ruleName := "NoMagicNumber", severity := .warning,
    message := magicNumberMessage, span := s, fix := none }

/-- Text of the "bad" searchable-names example
(src/index.js line 21): the magic number as a bare call argument. -/
def badCallText : String :=
  "setTimeout(blastOff, 86400000);"

/-- Span of the literal argument `86400000` in `badCallText`. -/
def badCallArgSpan : Span :=
  { startLine := 1, startCol := 22, endLine := 1, endCol := 30 }

/-- AST of `badCallText`: one call with an identifier and a magic
numeric literal as arguments. -/
def badCallAst : ASTNode :=
  .program
    (.cons
      (.call "setTimeout"
        (.cons (.identRef "blastOff" { startLine := 1, startCol := 12, endLine := 1, endCol := 20 })
          (.cons (.numLit 86400000 badCallArgSpan) .nil))
        { startLine := 1, startCol := 1, endLine := 1, endCol := 31 })
      .nil)
    { startLine := 1, startCol := 1, endLine := 1, endCol := 31 }

/-- The "bad" example as a well-formed source file. -/
def badCallFile : SourceText :=
  .wellFormed badCallText badCallAst

/-- Text of the "good" searchable-names example
(src/index.js lines 23-24): the literal bound to a SCREAMING_CASE
constant that is then passed as the argument. -/
def goodConstText : String :=
  "const MILLISECONDS_PER_DAY = 86400000;\nsetTimeout(blastOff, MILLISECONDS_PER_DAY);"

/-- AST of `goodConstText`: a const binding of the literal, then the
call whose second argument is the identifier reference. -/
def goodConstAst : ASTNode :=
  .program
    (.cons
      (.constDecl "MILLISECONDS_PER_DAY"
        (.numLit 86400000 { startLine := 1, startCol := 30, endLine := 1, endCol := 38 })
        { startLine := 1, startCol := 1, endLine := 1, endCol := 39 })
      (.cons
        (.call "setTimeout"
          (.cons (.identRef "blastOff" { startLine := 2, startCol := 12, endLine := 2, endCol := 20 })
            (.cons (.identRef "MILLISECONDS_PER_DAY" { startLine := 2, startCol := 22, endLine := 2, endCol := 42 }) .nil))
          { startLine := 2, startCol := 1, endLine := 2, endCol := 43 })
        .nil))
    { startLine := 1, startCol := 1, endLine := 2, endCol := 43 }

/-- The "good" example as a well-formed source file. -/
def goodConstFile : SourceText :=
  .wellFormed goodConstText goodConstAst

/-- A malformed source file and its parse failure. -/
def malformedFile : SourceText :=
  .malformed "const = ;"
    { message := "Unexpected token"
      span := { startLine := 1, startCol := 7, endLine := 1, endCol := 8 } }

/-- The default registry with the NoMagicNumber rule disabled. -/
def disabledRegistry : Registry :=
  defaultRegistry.disable ["NoMagicNumber"]

/-! ### Theorems -/

/-- Claim C1: for every registry configuration and every source file
(well-formed or not), `check` terminates — it is a total function —
and returns a Report whose findings are sorted ascending by the key
(line, column, rule name); `findingLE` is exactly that lexicographic
key order, with ties at one position broken by rule name. -/
theorem check_findings_sorted (reg : Registry) (file : SourceText) :
    List.Sorted findingLE (check reg file).findings := by
  cases file <;> exact List.sorted_insertionSort findingLE _

/-- Claim C2: `check` is deterministic as a two-run property — on
identical input (same text and same parse outcome from the
deterministic external parser) and identical configuration, two runs
return identical Reports: same findings, same order, same summary
counts.  The embedding is a pure function of its two arguments, so
there is no hidden state or timestamp to depend on. -/
theorem check_deterministic (reg1 reg2 : Registry) (file1 file2 : SourceText)
    (hfile : file1 = file2) (hreg : reg1 = reg2) :
    check reg1 file1 = check reg2 file2 := by
  subst hfile
  subst hreg
  rfl

/-- Witness for C2: two identical runs on the concrete good example
agree. -/
theorem check_deterministic_witness :
    check defaultRegistry goodConstFile = check defaultRegistry goodConstFile :=
  check_deterministic defaultRegistry defaultRegistry goodConstFile goodConstFile rfl rfl

/-- Provenance of engine findings: every finding `runRules` collects
was produced by some registered rule whose name is in the active set,
and is tagged with that rule's name and severity. -/
theorem mem_runRules {reg : Registry} {ctx : Context} {f : Finding}
    (hf : f ∈ runRules reg ctx) :
    ∃ r ∈ reg.rules, reg.active.contains r.name = true ∧
      ∃ n, ∃ out ∈ r.evaluate n ctx,
        f = { ruleName := r.name, severity := r.severity,
              message := out.2, span := out.1, fix := none } := by
  unfold runRules at hf
  rcases List.mem_append.mp hf with h | h
  · rcases List.mem_flatMap.mp h with ⟨n, _hn, h2⟩
    rcases List.mem_flatMap.mp h2 with ⟨r, hr, h3⟩
    obtain ⟨hrr, hcond⟩ := List.mem_filter.mp hr
    rcases List.mem_map.mp h3 with ⟨out, hout, hfeq⟩
    refine ⟨r, hrr, ?_, n, out, hout, hfeq.symm⟩
    simp only [Bool.and_eq_true] at hcond
    exact hcond.1.2
  · rcases List.mem_flatMap.mp h with ⟨r, hr, h3⟩
    obtain ⟨hrr, hcond⟩ := List.mem_filter.mp hr
    rcases List.mem_map.mp h3 with ⟨out, hout, hfeq⟩
    refine ⟨r, hrr, ?_, ctx.root, out, hout, hfeq.symm⟩
    simp only [Bool.and_eq_true] at hcond
    exact hcond.2

/-- Claim C3: for every rule that is registered but disabled (its name
is not in the active set — and rule names are distinct from the
reserved synthetic name "parse-error"), no finding carrying that
rule's name appears in the Report of any source file, no matter how
many nodes would violate the rule. -/
theorem disabled_rule_silent (reg : Registry) (file : SourceText) (r : Rule)
    (_hreg : r ∈ reg.rules) (hdis : r.name ∉ reg.active)
    (hsyn : r.name ≠ "parse-error") :
    ∀ f ∈ (check reg file).findings, f.ruleName ≠ r.name := by
  intro f hf heq
  cases file with
  | malformed t e =>
    have hmem : f = parseErrorFinding e := by
      simpa [check, parse, mkReport, sortFindings] using hf
    rw [hmem] at heq
    exact hsyn heq.symm
  | wellFormed t ast =>
    have hf' : f ∈ runRules reg { root := ast, text := t } := by
      simpa [check, parse, mkReport, sortFindings] using hf
    obtain ⟨r', _hr', hact, n, out, hout, hfeq⟩ := mem_runRules hf'
    rw [hfeq] at heq
    apply hdis
    rw [← heq]
    simpa using hact

/-- Witness for C3: with NoMagicNumber disabled, the file whose single
call argument is a magic number produces no NoMagicNumber finding. -/
theorem disabled_rule_silent_witness :
    (NoMagicNumber ∈ disabledRegistry.rules ∧
      "NoMagicNumber" ∉ disabledRegistry.active) ∧
    ∀ f ∈ (check disabledRegistry badCallFile).findings,
      f.ruleName ≠ NoMagicNumber.name := by
  refine ⟨⟨?_, ?_⟩, ?_⟩
  · simp [disabledRegistry, defaultRegistry, Registry.disable]
  · decide
  · exact disabled_rule_silent disabledRegistry badCallFile NoMagicNumber
      (by simp [disabledRegistry, defaultRegistry, Registry.disable])
      (by decide) (by decide)

/-- Claim C4: a batch produces one Report per file; each file's Report
in the batch is exactly the independent `check` of that file, so one
file's parse failure does not disturb the others; and a file whose
text fails to parse yields exactly the single synthetic finding with
rule name "parse-error" and severity error, and nothing else. -/
theorem batch_parse_error_isolated (reg : Registry) (files : List SourceText) :
    (checkBatch reg files).length = files.length ∧
    (∀ i : Nat, (checkBatch reg files)[i]? = (files[i]?).map (check reg)) ∧
    (∀ file : SourceText, ∀ e : ParseError, parse file = .error e →
      (check reg file).findings = [parseErrorFinding e] ∧
      (parseErrorFinding e).ruleName = "parse-error" ∧
      (parseErrorFinding e).severity = .error) := by
  refine ⟨by simp [checkBatch], fun i => by simp [checkBatch], ?_⟩
  intro file e he
  cases file with
  | wellFormed t ast => simp [parse] at he
  | malformed t e' =>
    have he2 : e' = e := by simpa [parse] using he
    subst he2
    exact ⟨rfl, rfl, rfl⟩

/-- Witness for C4: in a two-file batch with one malformed file, the
malformed file's Report is the single parse-error finding. -/
theorem batch_parse_error_isolated_witness :
    (checkBatch defaultRegistry [malformedFile, badCallFile]).length = 2 ∧
    (check defaultRegistry malformedFile).findings =
      [parseErrorFinding
        { message := "Unexpected token"
          span := { startLine := 1, startCol := 7, endLine := 1, endCol := 8 } }] := by
  have h := batch_parse_error_isolated defaultRegistry [malformedFile, badCallFile]
  exact ⟨h.1, (h.2.2 malformedFile _ rfl).1⟩

/-- A finding is at or above the failing severity exactly when its
severity is error, or is warning while strict mode is on. -/
theorem qualifies_iff (strict : Bool) (f : Finding) :
    qualifies strict f = true ↔
      (f.severity = .error ∨ (strict = true ∧ f.severity = .warning)) := by
  obtain ⟨n, sev, m, s, fx⟩ := f
  cases sev <;> cases strict <;> simp [qualifies]

/-- Claim C6: the Reporter's exit status is 0 exactly when the run
completed and no file produced a finding at or above the failing
severity (error by default, warnings counting only in strict mode); it
is 1 exactly when the run completed with at least one such finding;
and it is 2 exactly on internal error (unreadable file or invalid
configuration). -/
theorem exit_status_correct (strict : Bool) (outcome : Except RunError (List Report)) :
    (exitStatus strict outcome = 0 ↔
      ∃ reports, outcome = .ok reports ∧
        ∀ rep ∈ reports, ∀ f ∈ rep.findings,
          ¬(f.severity = .error ∨ (strict = true ∧ f.severity = .warning))) ∧
    (exitStatus strict outcome = 1 ↔
      ∃ reports, outcome = .ok reports ∧
        ∃ rep ∈ reports, ∃ f ∈ rep.findings,
          (f.severity = .error ∨ (strict = true ∧ f.severity = .warning))) ∧
    (exitStatus strict outcome = 2 ↔ ∃ e, outcome = .error e) := by
  cases outcome with
  | error e =>
    refine ⟨⟨fun h => ?_, ?_⟩, ⟨fun h => ?_, ?_⟩, fun _ => ⟨e, rfl⟩, fun _ => rfl⟩
    · simp [exitStatus] at h
    · rintro ⟨reports, h, -⟩; cases h
    · simp [exitStatus] at h
    · rintro ⟨reports, h, -⟩; cases h
  | ok reports =>
    have hany : (reports.any fun rep => rep.findings.any (qualifies strict)) = true ↔
        ∃ rep ∈ reports, ∃ f ∈ rep.findings,
          (f.severity = .error ∨ (strict = true ∧ f.severity = .warning)) := by
      simp [List.any_eq_true, qualifies_iff]
    by_cases h : (reports.any fun rep => rep.findings.any (qualifies strict)) = true
    · have hs : exitStatus strict (Except.ok reports) = 1 := by
        simp [exitStatus, h]
      refine ⟨⟨fun h0 => ?_, fun hrhs => ?_⟩,
        ⟨fun _ => ⟨reports, rfl, hany.mp h⟩, fun _ => hs⟩, ⟨fun h2 => ?_, ?_⟩⟩
      · rw [hs] at h0; exact absurd h0 one_ne_zero
      · exfalso
        obtain ⟨reports', heq, hall⟩ := hrhs
        cases heq
        obtain ⟨rep, hrep, ff, hff, hqual⟩ := hany.mp h
        exact hall rep hrep ff hff hqual
      · rw [hs] at h2; exact absurd h2 (by decide)
      · rintro ⟨e, he⟩; cases he
    · have hs : exitStatus strict (Except.ok reports) = 0 := by
        simp [exitStatus, h]
      refine ⟨⟨fun _ => ⟨reports, rfl, ?_⟩, fun _ => hs⟩,
        ⟨fun h1 => ?_, fun hrhs => ?_⟩, ⟨fun h2 => ?_, ?_⟩⟩
      · intro rep hrep ff hff hqual
        exact h (hany.mpr ⟨rep, hrep, ff, hff, hqual⟩)
      · rw [hs] at h1; exact absurd h1 zero_ne_one
      · exfalso
        obtain ⟨reports', heq, hex⟩ := hrhs
        cases heq
        exact h (hany.mpr hex)
      · rw [hs] at h2; exact absurd h2 (by decide)
      · rintro ⟨e, he⟩; cases he

/-- At a single node, the engine's NoMagicNumber findings are exactly
one finding per magic literal argument when the node is a call, and
none otherwise (the other active rule emits findings under its own
name only). -/
theorem node_filter_magic (ctx : Context) (n : ASTNode) :
    ((defaultRegistry.activeRules n.kind).flatMap fun r => ruleFindings r n ctx).filter
        (fun f => f.ruleName == "NoMagicNumber") =
      (match n with
       | .call _ args _ => magicArgSpans args
       | _ => []).map magicFinding := by
  cases n with
  | call c args s =>
    rw [show defaultRegistry.activeRules (ASTNode.kind (.call c args s)) = [NoMagicNumber] from rfl]
    simp [ruleFindings, NoMagicNumber, List.filter_map, Function.comp_def, magicFinding,
      magicNumberMessage]
  | funcDecl nm ps body s =>
    rw [show defaultRegistry.activeRules (ASTNode.kind (.funcDecl nm ps body s)) =
      [NoSingleLetterIdentifier] from rfl]
    simp [ruleFindings, NoSingleLetterIdentifier, List.filter_map, Function.comp_def]
  | numLit v s =>
    rw [show defaultRegistry.activeRules (ASTNode.kind (.numLit v s)) = [] from rfl]
    simp
  | identRef nm s =>
    rw [show defaultRegistry.activeRules (ASTNode.kind (.identRef nm s)) = [] from rfl]
    simp
  | constDecl nm init s =>
    rw [show defaultRegistry.activeRules (ASTNode.kind (.constDecl nm init s)) = [] from rfl]
    simp
  | program stmts s =>
    rw [show defaultRegistry.activeRules (ASTNode.kind (.program stmts s)) = [] from rfl]
    simp

/-- Over a whole pass, the engine's NoMagicNumber findings are exactly
the magic call-argument spans of the file, in traversal order. -/
theorem runRules_filter_magic (ctx : Context) :
    (runRules defaultRegistry ctx).filter (fun f => f.ruleName == "NoMagicNumber") =
      ctx.root.magicCallArgSpans.map magicFinding := by
  have hwf : (defaultRegistry.activeWholeFileRules).flatMap
      (fun r => ruleFindings r ctx.root ctx) = [] := rfl
  unfold runRules ASTNode.magicCallArgSpans
  rw [hwf, List.append_nil]
  generalize ctx.root.collectNodes = l
  induction l with
  | nil => rfl
  | cons hd tl ih =>
    rw [List.flatMap_cons, List.flatMap_cons, List.filter_append, List.map_append, ih,
      node_filter_magic]

/-- The Report of a well-formed file contains as many NoMagicNumber
findings as the file has magic call-argument spans; sorting does not
change the count. -/
theorem check_countP_magic (t : String) (a : ASTNode) :
    (check defaultRegistry (.wellFormed t a)).findings.countP
        (fun f => f.ruleName == "NoMagicNumber") = a.magicCallArgSpans.length := by
  have hperm : List.Perm (sortFindings (runRules defaultRegistry { root := a, text := t }))
      (runRules defaultRegistry { root := a, text := t }) :=
    List.perm_insertionSort findingLE _
  have h1 : (check defaultRegistry (.wellFormed t a)).findings.countP
        (fun f => f.ruleName == "NoMagicNumber") =
      (runRules defaultRegistry { root := a, text := t }).countP
        (fun f => f.ruleName == "NoMagicNumber") :=
    hperm.countP_eq _
  rw [h1, List.countP_eq_length_filter, runRules_filter_magic, List.length_map]

/-- Claim C5: a well-formed file whose AST has exactly one numeric
literal other than 0, 1, -1 used directly as a bare call argument (at
span `s`) yields exactly one NoMagicNumber finding, located at that
argument's span; and the concrete variant binding the literal to the
SCREAMING_CASE constant `MILLISECONDS_PER_DAY` first and passing the
identifier instead yields zero NoMagicNumber findings. -/
theorem noMagicNumber_exact (txt : String) (ast : ASTNode) (s : Span)
    (hone : ast.magicCallArgSpans = [s]) :
    ((check defaultRegistry (.wellFormed txt ast)).findings.countP
        (fun f => f.ruleName == "NoMagicNumber") = 1 ∧
      ∀ f ∈ (check defaultRegistry (.wellFormed txt ast)).findings,
        f.ruleName = "NoMagicNumber" → f.span = s) ∧
    (check defaultRegistry goodConstFile).findings.countP
        (fun f => f.ruleName == "NoMagicNumber") = 0 := by
  refine ⟨⟨?_, ?_⟩, ?_⟩
  · rw [check_countP_magic, hone]
    rfl
  · intro f hf hname
    have hf2 : f ∈ runRules defaultRegistry { root := ast, text := txt } := by
      simpa [check, parse, mkReport, sortFindings] using hf
    have hfil : f ∈ (runRules defaultRegistry { root := ast, text := txt }).filter
        (fun f => f.ruleName == "NoMagicNumber") :=
      List.mem_filter.mpr (And.intro hf2 (by simp [hname]))
    rw [runRules_filter_magic] at hfil
    rw [hone] at hfil
    have hfeq : f = magicFinding s := by simpa using hfil
    rw [hfeq]
    rfl
  · rw [show goodConstFile = SourceText.wellFormed goodConstText goodConstAst from rfl]
    rw [check_countP_magic]
    rfl

/-- Witness for C5: the concrete bad example `setTimeout(blastOff,
86400000);` has exactly one magic call argument and its Report carries
exactly one NoMagicNumber finding. -/
theorem noMagicNumber_exact_witness :
    badCallAst.magicCallArgSpans = [badCallArgSpan] ∧
    (check defaultRegistry (.wellFormed badCallText badCallAst)).findings.countP
        (fun f => f.ruleName == "NoMagicNumber") = 1 :=
  ⟨rfl, ((noMagicNumber_exact badCallText badCallAst badCallArgSpan rfl).1).1⟩

/-- Every magic call-argument span of a sibling list is the span of
one of its nodes. -/
theorem magicArgSpans_subset_topSpans :
    ∀ (l : ASTNodeList) (s : Span), s ∈ magicArgSpans l → s ∈ l.topSpans
  | .nil => by
    intro s h
    simp [magicArgSpans] at h
  | .cons hd tl => by
    intro s h
    have ih := magicArgSpans_subset_topSpans tl
    simp only [magicArgSpans] at h
    rw [ASTNodeList.topSpans]
    rcases List.mem_append.mp h with h1 | h1
    · cases hd with
      | numLit v sp =>
        by_cases hm : isMagicValue v
        · simp [hm] at h1
          rw [h1]
          exact List.mem_cons_self _ _
        · simp [hm] at h1
      | identRef nm sp => simp at h1
      | call c args sp => simp at h1
      | constDecl nm init sp => simp at h1
      | funcDecl nm ps body sp => simp at h1
      | program stmts sp => simp at h1
    · exact List.mem_cons_of_mem _ (ih s h1)

/-- Span provenance for the default registry: every finding the engine
collects is located at a span the parser placed in the AST. -/
theorem span_of_runRules_default {ctx : Context} {f : Finding}
    (hf : f ∈ runRules defaultRegistry ctx) : f.span ∈ ctx.root.allSpans := by
  unfold runRules at hf
  rw [show (defaultRegistry.activeWholeFileRules).flatMap
      (fun r => ruleFindings r ctx.root ctx) = [] from rfl, List.append_nil] at hf
  rcases List.mem_flatMap.mp hf with ⟨n, hn, h2⟩
  rcases List.mem_flatMap.mp h2 with ⟨r, hr, h3⟩
  have hr2 : r ∈ defaultRegistry.rules := (List.mem_filter.mp hr).1
  have hcases : r = NoMagicNumber ∨ r = NoSingleLetterIdentifier := by
    simpa [defaultRegistry] using hr2
  have hshallow : f.span ∈ n.shallowSpans := by
    rcases List.mem_map.mp h3 with ⟨out, hout, hfeq⟩
    subst hfeq
    rcases hcases with rfl | rfl
    · cases n with
      | call c args sp =>
        simp only [NoMagicNumber] at hout
        rcases List.mem_map.mp hout with ⟨s0, hs0, houteq⟩
        subst houteq
        simp only [ASTNode.shallowSpans]
        exact List.mem_cons_of_mem _ (magicArgSpans_subset_topSpans args s0 hs0)
      | numLit v sp => simp [NoMagicNumber] at hout
      | identRef nm sp => simp [NoMagicNumber] at hout
      | constDecl nm init sp => simp [NoMagicNumber] at hout
      | funcDecl nm ps body sp => simp [NoMagicNumber] at hout
      | program stmts sp => simp [NoMagicNumber] at hout
    · cases n with
      | funcDecl nm ps body sp =>
        simp only [NoSingleLetterIdentifier] at hout
        rcases List.mem_filterMap.mp hout with ⟨p, hp, hpeq⟩
        by_cases hl : (p.1.length == 1) = true
        · rw [if_pos hl] at hpeq
          cases hpeq
          simp only [ASTNode.shallowSpans]
          exact List.mem_cons_of_mem _ (List.mem_map.mpr ⟨p, hp, rfl⟩)
        · rw [if_neg hl] at hpeq
          cases hpeq
      | numLit v sp => simp [NoSingleLetterIdentifier] at hout
      | identRef nm2 sp => simp [NoSingleLetterIdentifier] at hout
      | call c args sp => simp [NoSingleLetterIdentifier] at hout
      | constDecl nm2 init sp => simp [NoSingleLetterIdentifier] at hout
      | program stmts sp => simp [NoSingleLetterIdentifier] at hout
  exact List.mem_flatMap.mpr ⟨n, hn, hshallow⟩

/-- Claim C7: when the external parser respects the file's bounds (its
contract: every span it attaches, and the span of a parse error, lies
within the file), every Finding in the Report produced by a check pass
has its span within the bounds of that SourceFile.  Findings are plain
immutable values in this embedding — nothing in the engine modifies a
finding after `ruleFindings` or `parseErrorFinding` creates it. -/
theorem findings_span_in_bounds (file : SourceText)
    (hparser : ∀ s ∈ file.spans, s.inBounds file.lineCount) :
    ∀ f ∈ (check defaultRegistry file).findings, f.span.inBounds file.lineCount := by
  intro f hf
  cases file with
  | malformed t e =>
    have hmem : f = parseErrorFinding e := by
      simpa [check, parse, mkReport, sortFindings] using hf
    rw [hmem]
    exact hparser e.span (by simp [SourceText.spans])
  | wellFormed t ast =>
    have hf2 : f ∈ runRules defaultRegistry { root := ast, text := t } := by
      simpa [check, parse, mkReport, sortFindings] using hf
    have hspan : f.span ∈ ast.allSpans := span_of_runRules_default hf2
    exact hparser f.span (by simpa [SourceText.spans] using hspan)

/-- Witness for C7: on the concrete bad example every parser span is
in bounds, and the theorem places the produced finding's span in
bounds. -/
theorem findings_span_in_bounds_witness :
    badCallArgSpan.inBounds badCallFile.lineCount := by
  have h := findings_span_in_bounds badCallFile (by decide)
  exact h (magicFinding badCallArgSpan) (by decide)

/-- Claim C8: in the "bad" Liskov-substitution example, for a freshly
constructed Square, `setWidth(4)` then `setHeight(5)` then `getArea()`
returns 20, not 25 — `Square` overrides `setWidth` (setting both
dimensions to 4) but misspells its second method `setHeigh`, so
`setHeight(5)` resolves to the inherited `Rectangle.setHeight`, which
sets only the height, leaving width 4. -/
theorem square_setWidth_setHeight_area :
    Square.getArea (Square.setHeight (Square.setWidth Square.new 4) 5) = 20 ∧
    Square.getArea (Square.setHeight (Square.setWidth Square.new 4) 5) ≠ 25 := by
  constructor <;> decide

/-- Claim C9: the type-checking `combine(val1, val2)` returns
`val1 + val2` exactly when both arguments are numbers or both are
strings, and throws an Error with message "Must be of type String or
Number" for every other combination; returning and throwing are
mutually exclusive by the `Except` result. -/
theorem combine_typecheck (val1 val2 : JSVal) :
    (((val1.typeof = "number" ∧ val2.typeof = "number") ∨
        (val1.typeof = "string" ∧ val2.typeof = "string")) →
      combine val1 val2 = .ok (jsAdd val1 val2)) ∧
    (¬((val1.typeof = "number" ∧ val2.typeof = "number") ∨
        (val1.typeof = "string" ∧ val2.typeof = "string")) →
      combine val1 val2 = .error { message := "Must be of type String or Number" }) := by
  cases val1 <;> cases val2 <;>
    simp [combine, JSVal.typeof, jsAdd]

/-- Witness for C9: two numbers are combined to their sum, and a
number/string mix throws the type error. -/
theorem combine_typecheck_witness :
    combine (.num 2) (.num 3) = .ok (.num 5) ∧
    combine (.num 2) (.str "x") = .error { message := "Must be of type String or Number" } := by
  constructor
  · have h := (combine_typecheck (.num 2) (.num 3)).1 (Or.inl ⟨rfl, rfl⟩)
    simpa [jsAdd] using h
  · exact (combine_typecheck (.num 2) (.str "x")).2 (by decide)

/-- Sums over an index loop with a defaulted indexed read agree with
the direct left fold, for any per-record measure. -/
theorem foldl_range_getD (g : ProgrammerOutput → Int) (l : List ProgrammerOutput) :
    ∀ c : Int,
      (List.range l.length).foldl
          (fun a i => a + g (l.getD i ProgrammerOutput.default)) c =
        l.foldl (fun a x => a + g x) c := by
  induction l using List.reverseRecOn with
  | nil => intro c; rfl
  | append_singleton l x ih =>
    intro c
    have hlen : (l ++ [x]).length = l.length + 1 := by simp
    rw [hlen, List.range_succ, List.foldl_append, List.foldl_append]
    have hcong :
        (List.range l.length).foldl
            (fun a i => a + g ((l ++ [x]).getD i ProgrammerOutput.default)) c =
          (List.range l.length).foldl
            (fun a i => a + g (l.getD i ProgrammerOutput.default)) c := by
      refine List.foldl_ext _ _ c (fun a i hi => ?_)
      rw [List.getD_append _ _ _ _ (List.mem_range.mp hi)]
    rw [hcong, ih]
    have hx : (l ++ [x]).getD l.length ProgrammerOutput.default = x := by
      rw [List.getD_append_right _ _ _ _ (le_refl _)]
      simp [List.getD]
    simp [hx]

/-- Claim C10: for every array of records with a numeric `linesOfCode`
field, the imperative accumulation (initialising `totalOutput` to 0 and
adding `programmerOutput[i].linesOfCode` for each index in order) and
the functional `reduce` with accumulator
`(totalLines, output) => totalLines + output.linesOfCode` and initial
value 0 compute the same total. -/
theorem totalOutput_imperative_eq_reduce (programmerOutput : List ProgrammerOutput) :
    totalOutputImperative programmerOutput = totalOutputReduce programmerOutput := by
  unfold totalOutputImperative totalOutputReduce
  exact foldl_range_getD (fun output => output.linesOfCode) programmerOutput 0

end CleanCode
